import Mathlib

/-!
Verification of the AI-Development-Workspace compliance auditors.

This file gives a shallow embedding, in Lean 4, of the core routines of the
repository's audit scripts and proves/refutes the specified properties:

* `scripts/prompt_merge.py` — `merge_prompts` (precedence merge engine),
  modelled on association lists with Python-dict update semantics
  (updating an existing key keeps its position, new keys append at the end);
* `scripts/audit_data_layout.py` — `_check_output_metadata` (scan cap /
  truncation policy) and `_validate_output_file` (per-file metadata
  validation), with the external JSON-Schema validator and
  `datetime.fromisoformat` treated as black-box oracles, as the spec
  treats the parsing libraries;
* `scripts/validate_config.py` — `validate_document` (structured-document
  validator over JSON-Schema plus a Pydantic model);
* `scripts/rz_ai_check.py` — `run_checks` / `ConsolidatedReport`
  (audit result aggregator);
* `scripts/audit_llm_usage.py` — `_scan_file` / `audit` (content pattern
  scanner with per-file I/O failure handling).

Python dictionaries are embedded as association lists (`List (String × α)`)
with insertion-order semantics; filesystem and library effects are passed in
explicitly (lists of enumerated paths, per-file stat/read outcomes, oracle
functions for the external validators).
-/

namespace AICheck

/-! ## Association lists with Python-dict semantics -/

/-- Keys of an association list, in storage order. -/
def keysOf {α : Type} (l : List (String × α)) : List String :=
  l.map Prod.fst

/-- Lookup in an association list (Python `d[k]` / `k in d`). -/
def alookup {α : Type} (k : String) : List (String × α) → Option α
  | [] => none
  | kv :: rest => if kv.1 = k then some kv.2 else alookup k rest

/-- Python dict assignment `d[k] = v`: replace in place if the key exists
(keeping its position), otherwise append at the end. -/
def dictUpdate {α : Type} (k : String) (v : α) : List (String × α) → List (String × α)
  | [] => [(k, v)]
  | kv :: rest => if kv.1 = k then (kv.1, v) :: rest else kv :: dictUpdate k v rest

/-- Python `overrides.setdefault(key, [prev]).append(cur)`: if `k` is present
append `cur` to its list, otherwise insert `(k, [prev, cur])` at the end. -/
def ovAppend (k : String) (prev cur : String) :
    List (String × List String) → List (String × List String)
  | [] => [(k, [prev, cur])]
  | kv :: rest => if kv.1 = k then (kv.1, kv.2 ++ [cur]) :: rest else kv :: ovAppend k prev cur rest

theorem alookup_isSome_iff_mem {α : Type} (k : String) (l : List (String × α)) :
    (alookup k l).isSome = true ↔ k ∈ keysOf l := by
  induction l with
  | nil => simp [alookup, keysOf]
  | cons kv rest ih =>
    by_cases h : kv.1 = k
    · simp [alookup, h, keysOf]
    · simp only [alookup, h, if_false, keysOf, List.map_cons, List.mem_cons]
      rw [ih]
      constructor
      · intro hm
        exact Or.inr hm
      · intro hm
        rcases hm with hm | hm
        · exact absurd hm.symm h
        · exact hm

theorem alookup_dictUpdate_self {α : Type} (k : String) (v : α) (l : List (String × α)) :
    alookup k (dictUpdate k v l) = some v := by
  induction l with
  | nil => simp [alookup, dictUpdate]
  | cons kv rest ih =>
    by_cases h : kv.1 = k
    · simp [alookup, dictUpdate, h]
    · simp [alookup, dictUpdate, h, ih]

theorem alookup_dictUpdate_ne {α : Type} {k q : String} (v : α) (l : List (String × α))
    (h : q ≠ k) : alookup q (dictUpdate k v l) = alookup q l := by
  have hkq : ¬ k = q := fun e => h (Eq.symm e)
  induction l with
  | nil => simp [alookup, dictUpdate, hkq]
  | cons kv rest ih =>
    by_cases hk : kv.1 = k
    · simp [alookup, dictUpdate, hk, hkq]
    · by_cases hq : kv.1 = q
      · simp [alookup, dictUpdate, hk, hq, h]
      · simp [alookup, dictUpdate, hk, hq, ih]

theorem alookup_ovAppend_self (k prev cur : String) (l : List (String × List String)) :
    alookup k (ovAppend k prev cur l) =
      some ((alookup k l).getD [prev] ++ [cur]) := by
  induction l with
  | nil => simp [alookup, ovAppend]
  | cons kv rest ih =>
    by_cases h : kv.1 = k
    · simp [alookup, ovAppend, h]
    · simp [alookup, ovAppend, h, ih]

theorem alookup_ovAppend_ne {k q : String} (prev cur : String)
    (l : List (String × List String)) (h : q ≠ k) :
    alookup q (ovAppend k prev cur l) = alookup q l := by
  have hkq : ¬ k = q := fun e => h (Eq.symm e)
  induction l with
  | nil => simp [alookup, ovAppend, hkq]
  | cons kv rest ih =>
    by_cases hk : kv.1 = k
    · simp [alookup, ovAppend, hk, hkq]
    · by_cases hq : kv.1 = q
      · simp [alookup, ovAppend, hk, hq, h]
      · simp [alookup, ovAppend, hk, hq, ih]

theorem keysOf_dictUpdate_mem {α : Type} {k : String} (v : α) {l : List (String × α)}
    (hm : k ∈ keysOf l) : keysOf (dictUpdate k v l) = keysOf l := by
  induction l with
  | nil => simp [keysOf] at hm
  | cons kv rest ih =>
    by_cases h : kv.1 = k
    · simp [keysOf, dictUpdate, h]
    · have hne : ¬ k = kv.1 := fun e => h (Eq.symm e)
      have hm2 : k ∈ keysOf rest := by
        simp only [keysOf, List.map_cons, List.mem_cons] at hm
        rcases hm with hm | hm
        · exact absurd hm hne
        · exact hm
      simp only [dictUpdate, h, if_false, keysOf, List.map_cons]
      rw [show List.map Prod.fst (dictUpdate k v rest) = keysOf (dictUpdate k v rest) from rfl,
        ih hm2]
      rfl

theorem keysOf_dictUpdate_not_mem {α : Type} {k : String} (v : α) {l : List (String × α)}
    (hm : k ∉ keysOf l) : keysOf (dictUpdate k v l) = keysOf l ++ [k] := by
  induction l with
  | nil => simp [keysOf, dictUpdate]
  | cons kv rest ih =>
    have h : ¬ kv.1 = k := by
      intro e
      exact hm (by simp [keysOf, e])
    have hm2 : k ∉ keysOf rest := by
      intro hk
      exact hm (by simp only [keysOf, List.map_cons, List.mem_cons]; exact Or.inr hk)
    simp only [dictUpdate, h, if_false, keysOf, List.map_cons]
    rw [show List.map Prod.fst (dictUpdate k v rest) = keysOf (dictUpdate k v rest) from rfl,
      ih hm2]
    rfl

/-! ## Precedence merge engine (`scripts/prompt_merge.py`) -/

/-- Result of merging prompt maps, including override provenance
(`prompt_merge.MergeReport`). -/
structure MergeReport (α : Type) where
  merged : List (String × α)
  source_by_key : List (String × String)
  overrides : List (String × List String)

/-- Body of one iteration of the inner loop of `merge_prompts`:
process one `(key, value)` item of the source named `sourceName`. -/
def mergeStep {α : Type} (sourceName : String) (st : MergeReport α) (kv : String × α) :
    MergeReport α :=
  { merged := dictUpdate kv.1 kv.2 st.merged
    source_by_key := dictUpdate kv.1 sourceName st.source_by_key
    overrides :=
      if (alookup kv.1 st.merged).isSome then
        ovAppend kv.1 ((alookup kv.1 st.source_by_key).getD "") sourceName st.overrides
      else st.overrides }

/-- Process one whole named source (the inner `for key, value in mapping.items()`). -/
def mergeSource {α : Type} (st : MergeReport α) (src : String × List (String × α)) :
    MergeReport α :=
  src.2.foldl (mergeStep src.1) st

/-- The outer loop of `merge_prompts` over the ordered source list. -/
def mergeSources {α : Type} (sources : List (String × List (String × α))) : MergeReport α :=
  sources.foldl mergeSource ⟨[], [], []⟩

/-- `merge_prompts(core, template, project)`: merge with precedence
project > template > core, recording provenance and overrides. -/
def merge_prompts {α : Type} (core template project : List (String × α)) : MergeReport α :=
  mergeSources [("core", core), ("template", template), ("project", project)]

theorem mergeSource_nil {α : Type} (sn : String) (st : MergeReport α) :
    mergeSource st (sn, []) = st := rfl

theorem mergeSource_cons {α : Type} (sn : String) (st : MergeReport α) (kv : String × α)
    (rest : List (String × α)) :
    mergeSource st (sn, kv :: rest) = mergeSource (mergeStep sn st kv) (sn, rest) := rfl

theorem merge_prompts_eq {α : Type} (core template project : List (String × α)) :
    merge_prompts core template project =
      mergeSource (mergeSource (mergeSource ⟨[], [], []⟩ ("core", core))
        ("template", template)) ("project", project) := rfl

/-- Processing one item leaves every other key's entries untouched. -/
theorem mergeStep_lookup_ne {α : Type} (sn : String) (st : MergeReport α) (kv : String × α)
    {q : String} (hq : q ≠ kv.1) :
    alookup q (mergeStep sn st kv).merged = alookup q st.merged ∧
    alookup q (mergeStep sn st kv).source_by_key = alookup q st.source_by_key ∧
    alookup q (mergeStep sn st kv).overrides = alookup q st.overrides := by
  refine ⟨alookup_dictUpdate_ne _ _ hq, alookup_dictUpdate_ne _ _ hq, ?_⟩
  unfold mergeStep
  by_cases hm : (alookup kv.1 st.merged).isSome
  · simp only [hm, if_true]
    exact alookup_ovAppend_ne _ _ _ hq
  · simp [hm]

/-- Processing a whole source leaves keys it does not define untouched. -/
theorem mergeSource_frame {α : Type} (sn : String) (m : List (String × α))
    (st : MergeReport α) {q : String} (hq : q ∉ keysOf m) :
    alookup q (mergeSource st (sn, m)).merged = alookup q st.merged ∧
    alookup q (mergeSource st (sn, m)).source_by_key = alookup q st.source_by_key ∧
    alookup q (mergeSource st (sn, m)).overrides = alookup q st.overrides := by
  induction m generalizing st with
  | nil => exact ⟨rfl, rfl, rfl⟩
  | cons kv rest ih =>
    have hqk : q ≠ kv.1 := by
      intro e
      exact hq (by simp [keysOf, e])
    have hqr : q ∉ keysOf rest := by
      intro hk
      exact hq (by simp only [keysOf, List.map_cons, List.mem_cons]; exact Or.inr hk)
    rw [mergeSource_cons]
    obtain ⟨f1, f2, f3⟩ := ih (mergeStep sn st kv) hqr
    obtain ⟨g1, g2, g3⟩ := mergeStep_lookup_ne sn st kv hqk
    exact ⟨f1.trans g1, f2.trans g2, f3.trans g3⟩

/-- Per-key effect of processing one whole source that does define the key
(keys within one source are distinct, as in a Python dict). -/
theorem mergeSource_char {α : Type} (sn : String) (m : List (String × α))
    (st : MergeReport α) {q : String} (hq : q ∈ keysOf m) (hnd : (keysOf m).Nodup) :
    alookup q (mergeSource st (sn, m)).merged = alookup q m ∧
    alookup q (mergeSource st (sn, m)).source_by_key = some sn ∧
    alookup q (mergeSource st (sn, m)).overrides =
      (if (alookup q st.merged).isSome then
        some ((alookup q st.overrides).getD [(alookup q st.source_by_key).getD ""] ++ [sn])
       else alookup q st.overrides) := by
  induction m generalizing st with
  | nil => simp [keysOf] at hq
  | cons kv rest ih =>
    rw [mergeSource_cons]
    by_cases hk : kv.1 = q
    · have hnd2 : kv.1 ∉ keysOf rest ∧ (keysOf rest).Nodup := by
        have hc : (kv.1 :: keysOf rest).Nodup := by
          rw [show kv.1 :: keysOf rest = keysOf (kv :: rest) from rfl]
          exact hnd
        exact List.nodup_cons.mp hc
      have hqr : q ∉ keysOf rest := fun hr => hnd2.1 (hk ▸ hr)
      obtain ⟨f1, f2, f3⟩ := mergeSource_frame sn rest (mergeStep sn st kv) hqr
      refine ⟨?_, ?_, ?_⟩
      · rw [f1]
        show alookup q (dictUpdate kv.1 kv.2 st.merged) = alookup q (kv :: rest)
        rw [hk, alookup_dictUpdate_self]
        simp [alookup, hk]
      · rw [f2]
        show alookup q (dictUpdate kv.1 sn st.source_by_key) = some sn
        rw [hk, alookup_dictUpdate_self]
      · rw [f3]
        show alookup q (if (alookup kv.1 st.merged).isSome then
            ovAppend kv.1 ((alookup kv.1 st.source_by_key).getD "") sn st.overrides
          else st.overrides) = _
        rw [hk]
        by_cases hm : (alookup q st.merged).isSome
        · simp only [hm, if_true]
          exact alookup_ovAppend_self q _ sn st.overrides
        · simp [hm]
    · have hqr : q ∈ keysOf rest := by
        simp only [keysOf, List.map_cons, List.mem_cons] at hq
        rcases hq with hq | hq
        · exact absurd hq.symm hk
        · exact hq
      have hndr : (keysOf rest).Nodup := by
        have hc : (kv.1 :: keysOf rest).Nodup := by
          rw [show kv.1 :: keysOf rest = keysOf (kv :: rest) from rfl]
          exact hnd
        exact (List.nodup_cons.mp hc).2
      have hqk : q ≠ kv.1 := fun e => hk e.symm
      obtain ⟨g1, g2, g3⟩ := mergeStep_lookup_ne sn st kv hqk
      obtain ⟨f1, f2, f3⟩ := ih (mergeStep sn st kv) hqr hndr
      refine ⟨?_, f2, ?_⟩
      · rw [f1]
        simp [alookup, hk]
      · rw [f3, g1, g2, g3]

theorem alookup_eq_none {α : Type} {k : String} {l : List (String × α)}
    (h : k ∉ keysOf l) : alookup k l = none := by
  cases he : alookup k l with
  | none => rfl
  | some v => exact absurd ((alookup_isSome_iff_mem k l).mp (by simp [he])) h

theorem mergeStep_keys {α : Type} (sn : String) (st : MergeReport α) (kv : String × α)
    (h : keysOf st.merged = keysOf st.source_by_key) :
    keysOf (mergeStep sn st kv).merged = keysOf (mergeStep sn st kv).source_by_key := by
  show keysOf (dictUpdate kv.1 kv.2 st.merged) = keysOf (dictUpdate kv.1 sn st.source_by_key)
  by_cases hm : kv.1 ∈ keysOf st.merged
  · have hm2 : kv.1 ∈ keysOf st.source_by_key := h ▸ hm
    rw [keysOf_dictUpdate_mem _ hm, keysOf_dictUpdate_mem _ hm2, h]
  · have hm2 : kv.1 ∉ keysOf st.source_by_key := by rw [← h]; exact hm
    rw [keysOf_dictUpdate_not_mem _ hm, keysOf_dictUpdate_not_mem _ hm2, h]

theorem mergeSource_keys {α : Type} (sn : String) (m : List (String × α))
    (st : MergeReport α) (h : keysOf st.merged = keysOf st.source_by_key) :
    keysOf (mergeSource st (sn, m)).merged = keysOf (mergeSource st (sn, m)).source_by_key := by
  induction m generalizing st with
  | nil => exact h
  | cons kv rest ih =>
    rw [mergeSource_cons]
    exact ih (mergeStep sn st kv) (mergeStep_keys sn st kv h)

/-- `merged` and `source_by_key` always hold exactly the same keys, in the
same storage order. -/
theorem merge_prompts_keys {α : Type} (core template project : List (String × α)) :
    keysOf (merge_prompts core template project).merged =
      keysOf (merge_prompts core template project).source_by_key := by
  rw [merge_prompts_eq]
  exact mergeSource_keys _ _ _ (mergeSource_keys _ _ _ (mergeSource_keys _ _ _ rfl))

/-- The names of the sources that define key `k`, in evaluation order. -/
def definers {α : Type} (core template project : List (String × α)) (k : String) :
    List String :=
  (if k ∈ keysOf core then ["core"] else []) ++
  (if k ∈ keysOf template then ["template"] else []) ++
  (if k ∈ keysOf project then ["project"] else [])

/-- Per-key characterization of `merge_prompts`: the merged value is that of
the last source defining the key, `source_by_key` names that source, and
`overrides` holds exactly the keys with at least two defining sources, each
mapped to its full definer list in evaluation order. -/
theorem merge_prompts_char {α : Type} (core template project : List (String × α))
    (hc : (keysOf core).Nodup) (ht : (keysOf template).Nodup)
    (hp : (keysOf project).Nodup) (k : String) :
    alookup k (merge_prompts core template project).merged =
      (if k ∈ keysOf project then alookup k project
       else if k ∈ keysOf template then alookup k template
       else alookup k core) ∧
    alookup k (merge_prompts core template project).source_by_key =
      (definers core template project k).getLast? ∧
    alookup k (merge_prompts core template project).overrides =
      (if 2 ≤ (definers core template project k).length
       then some (definers core template project k) else none) := by
  rw [merge_prompts_eq]
  set R1 := mergeSource (⟨[], [], []⟩ : MergeReport α) ("core", core) with hR1
  set R2 := mergeSource R1 ("template", template) with hR2
  set R3 := mergeSource R2 ("project", project) with hR3
  by_cases hkc : k ∈ keysOf core <;> by_cases hkt : k ∈ keysOf template <;>
    by_cases hkp : k ∈ keysOf project
  · -- core, template, project all define k
    have hsc : (alookup k core).isSome = true := (alookup_isSome_iff_mem k core).mpr hkc
    have hst : (alookup k template).isSome = true :=
      (alookup_isSome_iff_mem k template).mpr hkt
    obtain ⟨m1, s1, o1⟩ := mergeSource_char (α := α) "core" core ⟨[], [], []⟩ hkc hc
    rw [← hR1] at m1 s1 o1
    have o1n : alookup k R1.overrides = none := by rw [o1]; rfl
    obtain ⟨m2, s2, o2⟩ := mergeSource_char (α := α) "template" template R1 hkt ht
    rw [← hR2] at m2 s2 o2
    rw [m1, s1, o1n] at o2
    simp only [hsc, if_true, Option.getD_none, Option.getD_some] at o2
    obtain ⟨m3, s3, o3⟩ := mergeSource_char (α := α) "project" project R2 hkp hp
    rw [← hR3] at m3 s3 o3
    rw [m2, s2, o2] at o3
    simp only [hst, if_true, Option.getD_some] at o3
    refine ⟨?_, ?_, ?_⟩
    · rw [m3]; simp [hkp]
    · rw [s3]; simp [definers, hkc, hkt, hkp]
    · rw [o3]; simp [definers, hkc, hkt, hkp]
  · -- core and template define k, project does not
    have hsc : (alookup k core).isSome = true := (alookup_isSome_iff_mem k core).mpr hkc
    obtain ⟨m1, s1, o1⟩ := mergeSource_char (α := α) "core" core ⟨[], [], []⟩ hkc hc
    rw [← hR1] at m1 s1 o1
    have o1n : alookup k R1.overrides = none := by rw [o1]; rfl
    obtain ⟨m2, s2, o2⟩ := mergeSource_char (α := α) "template" template R1 hkt ht
    rw [← hR2] at m2 s2 o2
    rw [m1, s1, o1n] at o2
    simp only [hsc, if_true, Option.getD_none, Option.getD_some] at o2
    obtain ⟨f1, f2, f3⟩ := mergeSource_frame (α := α) "project" project R2 hkp
    rw [← hR3] at f1 f2 f3
    refine ⟨?_, ?_, ?_⟩
    · rw [f1, m2]; simp [hkp, hkt]
    · rw [f2, s2]; simp [definers, hkc, hkt, hkp]
    · rw [f3, o2]; simp [definers, hkc, hkt, hkp]
  · -- core and project define k, template does not
    have hsc : (alookup k core).isSome = true := (alookup_isSome_iff_mem k core).mpr hkc
    obtain ⟨m1, s1, o1⟩ := mergeSource_char (α := α) "core" core ⟨[], [], []⟩ hkc hc
    rw [← hR1] at m1 s1 o1
    have o1n : alookup k R1.overrides = none := by rw [o1]; rfl
    obtain ⟨f1, f2, f3⟩ := mergeSource_frame (α := α) "template" template R1 hkt
    rw [← hR2] at f1 f2 f3
    obtain ⟨m3, s3, o3⟩ := mergeSource_char (α := α) "project" project R2 hkp hp
    rw [← hR3] at m3 s3 o3
    rw [f1, m1, f2, s1, f3, o1n] at o3
    simp only [hsc, if_true, Option.getD_none, Option.getD_some] at o3
    refine ⟨?_, ?_, ?_⟩
    · rw [m3]; simp [hkp]
    · rw [s3]; simp [definers, hkc, hkt, hkp]
    · rw [o3]; simp [definers, hkc, hkt, hkp]
  · -- only core defines k
    obtain ⟨m1, s1, o1⟩ := mergeSource_char (α := α) "core" core ⟨[], [], []⟩ hkc hc
    rw [← hR1] at m1 s1 o1
    have o1n : alookup k R1.overrides = none := by rw [o1]; rfl
    obtain ⟨f1, f2, f3⟩ := mergeSource_frame (α := α) "template" template R1 hkt
    rw [← hR2] at f1 f2 f3
    obtain ⟨g1, g2, g3⟩ := mergeSource_frame (α := α) "project" project R2 hkp
    rw [← hR3] at g1 g2 g3
    refine ⟨?_, ?_, ?_⟩
    · rw [g1, f1, m1]; simp [hkp, hkt]
    · rw [g2, f2, s1]; simp [definers, hkc, hkt, hkp]
    · rw [g3, f3, o1n]; simp [definers, hkc, hkt, hkp]
  · -- template and project define k, core does not
    have hst : (alookup k template).isSome = true :=
      (alookup_isSome_iff_mem k template).mpr hkt
    obtain ⟨f1, f2, f3⟩ := mergeSource_frame (α := α) "core" core ⟨[], [], []⟩ hkc
    rw [← hR1] at f1 f2 f3
    have b1 : alookup k R1.merged = none := by rw [f1]; rfl
    have b3 : alookup k R1.overrides = none := by rw [f3]; rfl
    obtain ⟨m2, s2, o2⟩ := mergeSource_char (α := α) "template" template R1 hkt ht
    rw [← hR2] at m2 s2 o2
    rw [b1, b3] at o2
    simp only [Option.isSome_none, Bool.false_eq_true, if_false] at o2
    obtain ⟨m3, s3, o3⟩ := mergeSource_char (α := α) "project" project R2 hkp hp
    rw [← hR3] at m3 s3 o3
    rw [m2, s2, o2] at o3
    simp only [hst, if_true, Option.getD_none, Option.getD_some] at o3
    refine ⟨?_, ?_, ?_⟩
    · rw [m3]; simp [hkp]
    · rw [s3]; simp [definers, hkc, hkt, hkp]
    · rw [o3]; simp [definers, hkc, hkt, hkp]
  · -- only template defines k
    obtain ⟨f1, f2, f3⟩ := mergeSource_frame (α := α) "core" core ⟨[], [], []⟩ hkc
    rw [← hR1] at f1 f2 f3
    have b1 : alookup k R1.merged = none := by rw [f1]; rfl
    have b3 : alookup k R1.overrides = none := by rw [f3]; rfl
    obtain ⟨m2, s2, o2⟩ := mergeSource_char (α := α) "template" template R1 hkt ht
    rw [← hR2] at m2 s2 o2
    rw [b1, b3] at o2
    simp only [Option.isSome_none, Bool.false_eq_true, if_false] at o2
    obtain ⟨g1, g2, g3⟩ := mergeSource_frame (α := α) "project" project R2 hkp
    rw [← hR3] at g1 g2 g3
    refine ⟨?_, ?_, ?_⟩
    · rw [g1, m2]; simp [hkp, hkt]
    · rw [g2, s2]; simp [definers, hkc, hkt, hkp]
    · rw [g3, o2]; simp [definers, hkc, hkt, hkp]
  · -- only project defines k
    obtain ⟨f1, f2, f3⟩ := mergeSource_frame (α := α) "core" core ⟨[], [], []⟩ hkc
    rw [← hR1] at f1 f2 f3
    obtain ⟨g1, g2, g3⟩ := mergeSource_frame (α := α) "template" template R1 hkt
    rw [← hR2] at g1 g2 g3
    have b1 : alookup k R2.merged = none := by rw [g1, f1]; rfl
    have b3 : alookup k R2.overrides = none := by rw [g3, f3]; rfl
    obtain ⟨m3, s3, o3⟩ := mergeSource_char (α := α) "project" project R2 hkp hp
    rw [← hR3] at m3 s3 o3
    rw [b1, b3] at o3
    simp only [Option.isSome_none, Bool.false_eq_true, if_false] at o3
    refine ⟨?_, ?_, ?_⟩
    · rw [m3]; simp [hkp]
    · rw [s3]; simp [definers, hkc, hkt, hkp]
    · rw [o3]; simp [definers, hkc, hkt, hkp]
  · -- no source defines k
    obtain ⟨f1, f2, f3⟩ := mergeSource_frame (α := α) "core" core ⟨[], [], []⟩ hkc
    rw [← hR1] at f1 f2 f3
    obtain ⟨g1, g2, g3⟩ := mergeSource_frame (α := α) "template" template R1 hkt
    rw [← hR2] at g1 g2 g3
    obtain ⟨d1, d2, d3⟩ := mergeSource_frame (α := α) "project" project R2 hkp
    rw [← hR3] at d1 d2 d3
    refine ⟨?_, ?_, ?_⟩
    · rw [d1, g1, f1]
      simp [hkp, hkt, alookup_eq_none hkc]
      rfl
    · rw [d2, g2, f2]; simp [definers, hkc, hkt, hkp]; rfl
    · rw [d3, g3, f3]; simp [definers, hkc, hkt, hkp]; rfl

/-- C1: for the three sources core={a:1, x:1}, template={b:2, x:2},
project={c:3, x:3} merged in the order core, template, project,
`merge_prompts` returns merged == {a:1, b:2, c:3, x:3} (exactly these four
keys, with these values — Python dict equality is key-set based),
source_by_key["x"] == "project", overrides["x"] == ["core","template","project"],
and none of the keys a, b, c appears in overrides. -/
theorem merge_prompts_three_source_example :
    (merge_prompts [("a", (1 : Nat)), ("x", 1)] [("b", 2), ("x", 2)]
        [("c", 3), ("x", 3)]).merged = [("a", 1), ("x", 3), ("b", 2), ("c", 3)] ∧
    alookup "a" (merge_prompts [("a", (1 : Nat)), ("x", 1)] [("b", 2), ("x", 2)]
        [("c", 3), ("x", 3)]).merged = some 1 ∧
    alookup "b" (merge_prompts [("a", (1 : Nat)), ("x", 1)] [("b", 2), ("x", 2)]
        [("c", 3), ("x", 3)]).merged = some 2 ∧
    alookup "c" (merge_prompts [("a", (1 : Nat)), ("x", 1)] [("b", 2), ("x", 2)]
        [("c", 3), ("x", 3)]).merged = some 3 ∧
    alookup "x" (merge_prompts [("a", (1 : Nat)), ("x", 1)] [("b", 2), ("x", 2)]
        [("c", 3), ("x", 3)]).merged = some 3 ∧
    alookup "x" (merge_prompts [("a", (1 : Nat)), ("x", 1)] [("b", 2), ("x", 2)]
        [("c", 3), ("x", 3)]).source_by_key = some "project" ∧
    alookup "x" (merge_prompts [("a", (1 : Nat)), ("x", 1)] [("b", 2), ("x", 2)]
        [("c", 3), ("x", 3)]).overrides = some ["core", "template", "project"] ∧
    alookup "a" (merge_prompts [("a", (1 : Nat)), ("x", 1)] [("b", 2), ("x", 2)]
        [("c", 3), ("x", 3)]).overrides = none ∧
    alookup "b" (merge_prompts [("a", (1 : Nat)), ("x", 1)] [("b", 2), ("x", 2)]
        [("c", 3), ("x", 3)]).overrides = none ∧
    alookup "c" (merge_prompts [("a", (1 : Nat)), ("x", 1)] [("b", 2), ("x", 2)]
        [("c", 3), ("x", 3)]).overrides = none := by
  decide

/-- C10: invariants of `merge_prompts` for all inputs (keys within one source
are distinct, as in a Python dict): merged and source_by_key share exactly the
same key set, namely the union of the source key sets; source_by_key names the
last source defining the key; overrides holds exactly the keys with two or
more definers, mapped to the full ordered definer list, which ends with
source_by_key[k]; a key defined by exactly one source never appears in
overrides. -/
theorem merge_prompts_invariants {α : Type} (core template project : List (String × α))
    (hc : (keysOf core).Nodup) (ht : (keysOf template).Nodup)
    (hp : (keysOf project).Nodup) :
    let R := merge_prompts core template project
    keysOf R.merged = keysOf R.source_by_key ∧
    (∀ k, (alookup k R.merged).isSome = true ↔
        (k ∈ keysOf core ∨ k ∈ keysOf template ∨ k ∈ keysOf project)) ∧
    (∀ k, alookup k R.source_by_key = (definers core template project k).getLast?) ∧
    (∀ k, alookup k R.overrides =
        (if 2 ≤ (definers core template project k).length
         then some (definers core template project k) else none)) ∧
    (∀ k l, alookup k R.overrides = some l →
        2 ≤ l.length ∧ l = definers core template project k ∧
        l.getLast? = alookup k R.source_by_key) := by
  refine ⟨merge_prompts_keys core template project, ?_, ?_, ?_, ?_⟩
  · intro k
    obtain ⟨hm, hs, ho⟩ := merge_prompts_char core template project hc ht hp k
    rw [hm]
    by_cases hkp : k ∈ keysOf project
    · simp [hkp, alookup_isSome_iff_mem]
    · by_cases hkt : k ∈ keysOf template
      · simp [hkp, hkt, alookup_isSome_iff_mem]
      · simp [hkp, hkt, alookup_isSome_iff_mem]
  · exact fun k => (merge_prompts_char core template project hc ht hp k).2.1
  · exact fun k => (merge_prompts_char core template project hc ht hp k).2.2
  · intro k l h
    obtain ⟨hm, hs, ho⟩ := merge_prompts_char core template project hc ht hp k
    rw [ho] at h
    by_cases hlen : 2 ≤ (definers core template project k).length
    · rw [if_pos hlen] at h
      have hl : definers core template project k = l := Option.some.inj h
      refine ⟨hl ▸ hlen, hl.symm, ?_⟩
      rw [hs, hl]
    · rw [if_neg hlen] at h
      exact absurd h (by simp)

/-- Witness for C10 at a concrete input. -/
theorem merge_prompts_invariants_witness :
    (keysOf ([("a", 1), ("x", 1)] : List (String × Nat))).Nodup ∧
    (keysOf ([("x", 2)] : List (String × Nat))).Nodup ∧
    (keysOf ([] : List (String × Nat))).Nodup ∧
    (let R := merge_prompts ([("a", 1), ("x", 1)] : List (String × Nat)) [("x", 2)] []
     keysOf R.merged = keysOf R.source_by_key ∧
     (∀ k, (alookup k R.merged).isSome = true ↔
         (k ∈ keysOf ([("a", 1), ("x", 1)] : List (String × Nat)) ∨
          k ∈ keysOf ([("x", 2)] : List (String × Nat)) ∨
          k ∈ keysOf ([] : List (String × Nat)))) ∧
     (∀ k, alookup k R.source_by_key =
         (definers ([("a", 1), ("x", 1)] : List (String × Nat)) [("x", 2)] [] k).getLast?) ∧
     (∀ k, alookup k R.overrides =
         (if 2 ≤ (definers ([("a", 1), ("x", 1)] : List (String × Nat)) [("x", 2)] [] k).length
          then some (definers ([("a", 1), ("x", 1)] : List (String × Nat)) [("x", 2)] [] k)
          else none)) ∧
     (∀ k l, alookup k R.overrides = some l →
         2 ≤ l.length ∧
         l = definers ([("a", 1), ("x", 1)] : List (String × Nat)) [("x", 2)] [] k ∧
         l.getLast? = alookup k R.source_by_key)) :=
  ⟨by decide, by decide, by decide,
    merge_prompts_invariants [("a", 1), ("x", 1)] [("x", 2)] []
      (by decide) (by decide) (by decide)⟩

/-- C6 counterexample: with core={a:1} and empty template/project, the key "a"
was defined by source "core", yet `overrides` is empty — it does not map "a"
to ["core"]. So overrides does not map each key to the list of sources that
defined it; single-definer keys are absent and length-1 lists never occur. -/
theorem overrides_single_definer_counterexample :
    (merge_prompts [("a", (1 : Nat))] [] []).overrides = [] ∧
    ¬ alookup "a" (merge_prompts [("a", (1 : Nat))] [] []).overrides = some ["core"] := by
  decide

/-- C6 (amended): `overrides` maps exactly those keys that were defined by two
or more sources to the ordered list of every source name that defined the key,
in evaluation order; keys defined by exactly one source do not appear in
overrides at all. -/
theorem overrides_ledger_amended {α : Type} (core template project : List (String × α))
    (hc : (keysOf core).Nodup) (ht : (keysOf template).Nodup)
    (hp : (keysOf project).Nodup) :
    ∀ k, alookup k (merge_prompts core template project).overrides =
      (if 2 ≤ (definers core template project k).length
       then some (definers core template project k) else none) :=
  fun k => (merge_prompts_char core template project hc ht hp k).2.2

/-! ## Output-metadata scan cap (`audit_data_layout._check_output_metadata`)

The filesystem walk (`outputs_root.rglob("*.json")`) is embedded as the list
of enumerated file paths in walk order; per-file validation
(`_validate_output_file`) is a parameter, so theorems quantify over it. -/

/-- The truncation issue appended when the `max_files` cap is reached. -/
def truncationIssue (outputsRoot : String) (maxFiles : Nat) : String :=
  outputsRoot ++ ": metadata check truncated at " ++ toString maxFiles ++
    " files; consider running without --max-output-files for full coverage."

/-- The `for path in outputs_root.rglob("*.json")` loop of
`_check_output_metadata`, carrying the running `count`. -/
def checkOutputLoop (validate : String → List String) (root : String) :
    Option Nat → Nat → List String → List String
  | _, _, [] => []
  | some k, count, p :: rest =>
      if k ≤ count then [truncationIssue root k]
      else validate p ++ checkOutputLoop validate root (some k) (count + 1) rest
  | none, count, p :: rest =>
      validate p ++ checkOutputLoop validate root none (count + 1) rest

/-- `_check_output_metadata(outputs_root, max_files, schema_path)`:
returns `[]` when the outputs root does not exist, else runs the capped loop. -/
def check_output_metadata (validate : String → List String) (root : String)
    (rootExists : Bool) (maxFiles : Option Nat) (paths : List String) : List String :=
  if rootExists then checkOutputLoop validate root maxFiles 0 paths else []

theorem checkOutputLoop_capped (validate : String → List String) (root : String)
    (k : Nat) (paths : List String) :
    ∀ count, count ≤ k → k - count < paths.length →
      checkOutputLoop validate root (some k) count paths =
        (List.map validate (paths.take (k - count))).flatten ++ [truncationIssue root k] := by
  induction paths with
  | nil =>
    intro count hc hl
    simp at hl
  | cons p rest ih =>
    intro count hc hl
    by_cases he : k ≤ count
    · have hkc : k = count := le_antisymm he hc
      have h0 : k - count = 0 := by omega
      simp [checkOutputLoop, he, h0]
    · have hstep : k - count = (k - (count + 1)) + 1 := by omega
      have hl2 : k - (count + 1) < rest.length := by
        simp only [List.length_cons] at hl
        omega
      rw [show checkOutputLoop validate root (some k) count (p :: rest) =
          (if k ≤ count then [truncationIssue root k]
           else validate p ++ checkOutputLoop validate root (some k) (count + 1) rest)
        from rfl]
      rw [if_neg he, ih (count + 1) (by omega) hl2, hstep, List.take_succ_cons,
        List.map_cons, List.flatten_cons, List.append_assoc]

/-- C2: with a max-files cap of `k` over `k + m` (`m > 0`) matching files, the
output-metadata check (i) produces exactly the issues of the first `k` files
followed by the single truncation issue naming the cap, (ii) emits the
truncation issue exactly once (provided per-file validation never emits that
exact string itself), and (iii) never opens a file beyond the cap: the result
is unchanged under any validator that agrees on the first `k` files. The
embedded check is a total function, so no error is ever raised. -/
theorem check_output_metadata_truncation (validate : String → List String)
    (root : String) (k : Nat) (paths : List String) (h : k < paths.length) :
    check_output_metadata validate root true (some k) paths =
      (List.map validate (paths.take k)).flatten ++ [truncationIssue root k] ∧
    ((∀ p, p ∈ paths.take k → truncationIssue root k ∉ validate p) →
      (check_output_metadata validate root true (some k) paths).count
        (truncationIssue root k) = 1) ∧
    (∀ validate2 : String → List String,
      (∀ p, p ∈ paths.take k → validate2 p = validate p) →
      check_output_metadata validate2 root true (some k) paths =
        check_output_metadata validate root true (some k) paths) := by
  have key : ∀ v : String → List String,
      check_output_metadata v root true (some k) paths =
        (List.map v (paths.take k)).flatten ++ [truncationIssue root k] := by
    intro v
    show checkOutputLoop v root (some k) 0 paths = _
    have := checkOutputLoop_capped v root k paths 0 (Nat.zero_le k) (by simpa using h)
    simpa using this
  refine ⟨key validate, ?_, ?_⟩
  · intro hno
    rw [key validate, List.count_append]
    have hz : (List.map validate (paths.take k)).flatten.count (truncationIssue root k) = 0 := by
      rw [List.count_eq_zero]
      intro hmem
      rw [List.mem_flatten] at hmem
      obtain ⟨l, hl, hml⟩ := hmem
      rw [List.mem_map] at hl
      obtain ⟨p, hp, rfl⟩ := hl
      exact hno p hp hml
    rw [hz]
    simp
  · intro validate2 hagree
    rw [key validate, key validate2]
    have : List.map validate2 (paths.take k) = List.map validate (paths.take k) :=
      List.map_congr_left hagree
    rw [this]

/-- Witness for C2 at a concrete input: cap 1, two matching files. -/
theorem check_output_metadata_truncation_witness :
    (1 : Nat) < (["f1", "f2"] : List String).length ∧
    check_output_metadata (fun p => [p ++ ": issue"]) "out" true (some 1) ["f1", "f2"] =
      ["f1: issue", truncationIssue "out" 1] :=
  ⟨by decide,
    by
      have h := (check_output_metadata_truncation (fun p => [p ++ ": issue"])
        "out" 1 ["f1", "f2"] (by decide)).1
      rw [h]
      rfl⟩

/-- Witness for the amended C6 at a concrete input. -/
theorem overrides_ledger_amended_witness :
    alookup "x" (merge_prompts [("x", (1 : Nat))] [("x", 2)] [("x", 3)]).overrides =
      (if 2 ≤ (definers [("x", (1 : Nat))] [("x", 2)] [("x", 3)] "x").length
       then some (definers [("x", (1 : Nat))] [("x", 2)] [("x", 3)] "x") else none) :=
  overrides_ledger_amended [("x", (1 : Nat))] [("x", 2)] [("x", 3)]
    (by decide) (by decide) (by decide) "x"

/-! ## JSON values

Parsed JSON/YAML documents as produced by the black-box parsers: a tree of
maps/lists/scalars. JSON numbers are embedded as integers (no claim touches
fractional values). -/

/-- A parsed JSON/YAML value. -/
inductive JValue : Type
  | str (s : String)
  | num (n : Int)
  | bool (b : Bool)
  | null
  | arr (items : List JValue)
  | obj (fields : List (String × JValue))

mutual

/-- Python `repr` of a parsed JSON value (quote selection and escaping
simplified; no claim exercises this on strings needing escapes). -/
def pyRepr : JValue → String
  | .str s => "'" ++ s ++ "'"
  | .num n => toString n
  | .bool b => if b then "True" else "False"
  | .null => "None"
  | .arr items => "[" ++ String.intercalate ", " (pyReprList items) ++ "]"
  | .obj fields => "\x7b" ++ String.intercalate ", " (pyReprFields fields) ++ "\x7d"

/-- `repr` of each element of a JSON array. -/
def pyReprList : List JValue → List String
  | [] => []
  | v :: rest => pyRepr v :: pyReprList rest

/-- `repr` of each `key: value` entry of a JSON object. -/
def pyReprFields : List (String × JValue) → List String
  | [] => []
  | kv :: rest => ("'" ++ kv.1 ++ "': " ++ pyRepr kv.2) :: pyReprFields rest

end

/-- Python `str()` of a parsed JSON value. -/
def pyStr : JValue → String
  | .str s => s
  | v => pyRepr v

/-! ## Per-file output validation (`audit_data_layout._validate_output_file`)

`datetime.fromisoformat` is a black-box oracle `String → Except String Unit`
(the error payload is the exception text); the JSON-Schema validator is a
black-box oracle producing the list of `error.message` strings, with `none`
standing for a falsy schema (`None` or an empty mapping, both of which skip
`if schema:`). -/

/-- The required output metadata keys (`OUTPUT_METADATA_KEYS`). -/
def OUTPUT_METADATA_KEYS : List String := ["run_id", "model", "prompt_id", "timestamp"]

/-- Replace every occurrence of the character `target` by `rep`. This is
Python `str.replace(pattern, rep)` specialized to a one-character pattern,
which is the only shape the code uses (`.replace("Z", "+00:00")`). -/
def replaceChar (target : Char) (rep : List Char) : List Char → List Char
  | [] => []
  | c :: rest =>
    if c = target then rep ++ replaceChar target rep rest
    else c :: replaceChar target rep rest

/-- `ts_value.replace("Z", "+00:00")`. -/
def zNormalize (s : String) : String :=
  String.mk (replaceChar 'Z' ("+00:00".data) s.data)

/-- Normalize a timestamp value before `datetime.fromisoformat`: a string has
every "Z" replaced by "+00:00" (Python `str.replace` replaces all
occurrences); any other value is passed through `str()`. -/
def tsNormalize : JValue → String
  | .str s => zNormalize s
  | v => pyStr v

/-- The schema stage's error-message list: `_jsonschema_errors(schema, data)`
when the schema is truthy, else nothing. -/
def vofSchemaIssues (schemaErrs : Option (List (String × JValue) → List String))
    (m : List (String × JValue)) : List String :=
  match schemaErrs with
  | some f => f m
  | none => []

/-- The timestamp stage: at most one issue, produced when a `timestamp` field
is present but `datetime.fromisoformat` rejects its normalized form. -/
def vofTsIssues (path : String) (fromiso : String → Except String Unit)
    (m : List (String × JValue)) : List String :=
  match alookup "timestamp" m with
  | some ts =>
    match fromiso (tsNormalize ts) with
    | .error exc => [path ++ ": invalid timestamp format: " ++ exc]
    | .ok _ => []
  | none => []

/-- The required keys absent from the document, in catalogue order. -/
def vofMissing (m : List (String × JValue)) : List String :=
  OUTPUT_METADATA_KEYS.filter (fun k => (alookup k m).isNone)

/-- `_validate_output_file(path, schema)` applied to the parse outcome of one
output file. Mirrors the early returns of the Python code: parse error, then
non-object root, then schema failure, then timestamp failure, each stop
validation of this file; otherwise the missing-keys check reports one
combined issue. -/
def validate_output_file (path : String) (fromiso : String → Except String Unit)
    (schemaErrs : Option (List (String × JValue) → List String))
    (parsed : Except String JValue) : List String :=
  match parsed with
  | .error exc => [path ++ ": failed to parse JSON (" ++ exc ++ ")"]
  | .ok (.obj m) =>
    if (vofSchemaIssues schemaErrs m).isEmpty then
      if (vofTsIssues path fromiso m).isEmpty then
        if (vofMissing m).isEmpty then []
        else [path ++ ": missing metadata keys: " ++
          String.intercalate ", " (vofMissing m)]
      else vofTsIssues path fromiso m
    else [path ++ ": schema validation failed: " ++
      String.intercalate ", " (vofSchemaIssues schemaErrs m)]
  | .ok _ => [path ++ ": expected top-level JSON object with metadata"]

/-- C4 counterexample: a parsed top-level mapping that is missing the required
keys run_id, model and prompt_id but carries an unparsable timestamp gets only
the timestamp issue — no "missing metadata keys" issue is reported for it, so
the claim does not hold of every document missing required keys. -/
theorem missing_keys_counterexample :
    validate_output_file "out.json" (fun _ => .error "Invalid isoformat string") none
        (.ok (.obj [("timestamp", .str "not-a-date")])) =
      ["out.json: invalid timestamp format: Invalid isoformat string"] ∧
    ¬ ("out.json: missing metadata keys: run_id, model, prompt_id" ∈
        validate_output_file "out.json" (fun _ => .error "Invalid isoformat string") none
          (.ok (.obj [("timestamp", .str "not-a-date")]))) := by
  constructor
  · rfl
  · intro h
    simp [validate_output_file, vofSchemaIssues, vofTsIssues, tsNormalize, alookup] at h

/-- C4 (amended): for every parsed top-level mapping that reaches the
metadata-keys stage — the schema stage produced no issue and any present
timestamp parses — and that is missing a nonempty subset of the required keys,
the validator reports exactly one combined "missing metadata keys" issue
listing all absent keys together, not one issue per key. -/
theorem missing_keys_single_issue (path : String) (fromiso : String → Except String Unit)
    (schemaErrs : Option (List (String × JValue) → List String))
    (m : List (String × JValue))
    (hschema : vofSchemaIssues schemaErrs m = [])
    (hts : ∀ ts, alookup "timestamp" m = some ts → fromiso (tsNormalize ts) = .ok ())
    (hmiss : vofMissing m ≠ []) :
    validate_output_file path fromiso schemaErrs (.ok (.obj m)) =
      [path ++ ": missing metadata keys: " ++ String.intercalate ", " (vofMissing m)] := by
  have hts2 : vofTsIssues path fromiso m = [] := by
    unfold vofTsIssues
    cases hl : alookup "timestamp" m with
    | none => rfl
    | some ts =>
      show (match fromiso (tsNormalize ts) with
        | Except.error exc => [path ++ ": invalid timestamp format: " ++ exc]
        | Except.ok _ => []) = []
      rw [hts ts hl]
  show (if (vofSchemaIssues schemaErrs m).isEmpty then _ else _) = _
  rw [hschema]
  simp only [List.isEmpty_nil, if_true]
  rw [hts2]
  simp only [List.isEmpty_nil, if_true]
  have : (vofMissing m).isEmpty = false := by
    cases hv : vofMissing m with
    | nil => exact absurd hv hmiss
    | cons a rest => rfl
  rw [this]
  simp

/-- Witness for the amended C4 at a concrete input: a document carrying only a
valid timestamp yields the single combined issue for the other three keys. -/
theorem missing_keys_single_issue_witness :
    validate_output_file "o.json" (fun _ => .ok ()) none
        (.ok (.obj [("timestamp", JValue.str "2024-01-01T00:00:00Z")])) =
      ["o.json: missing metadata keys: run_id, model, prompt_id"] := by
  have h := missing_keys_single_issue "o.json" (fun _ => .ok ()) none
    [("timestamp", JValue.str "2024-01-01T00:00:00Z")] rfl (fun ts _ => rfl) (by decide)
  rw [h]
  rfl

/-- True when the string ends with the literal zone marker "Z". -/
def hasTrailingZ (s : String) : Bool :=
  match s.data.getLast? with
  | some c => c = 'Z'
  | none => false

/-- C7 counterexample: the timestamp stage never runs when the schema stage
fails. A document with an unparsable `timestamp` under a schema whose
validation fails (as the repository's real outputs-metadata schema does on a
malformed date-time) yields only the schema issue — the distinct
"invalid timestamp format" issue is absent, so the claim is false without a
schema-stage condition. -/
theorem timestamp_schema_shadow_counterexample :
    validate_output_file "s.json" (fun _ => .error "Invalid isoformat string")
        (some (fun _ => ["not-a-date is not a date-time"]))
        (.ok (.obj [("run_id", JValue.str "r1"), ("model", JValue.str "m1"),
          ("prompt_id", JValue.str "p1"), ("timestamp", JValue.str "not-a-date")])) =
      ["s.json: schema validation failed: not-a-date is not a date-time"] ∧
    ¬ ("s.json: invalid timestamp format: Invalid isoformat string" ∈
        validate_output_file "s.json" (fun _ => .error "Invalid isoformat string")
          (some (fun _ => ["not-a-date is not a date-time"]))
          (.ok (.obj [("run_id", JValue.str "r1"), ("model", JValue.str "m1"),
            ("prompt_id", JValue.str "p1"), ("timestamp", JValue.str "not-a-date")]))) := by
  constructor
  · rfl
  · decide

/-- C7 (amended): for a document whose schema stage produced no issue (no
schema supplied, or schema validation passed): a `timestamp` field that is a
string accepted by `datetime.fromisoformat` after the trailing-Z
normalization produces no timestamp issue, and the document validates with no
issues when all required keys are present; a timestamp string whose
normalized form `fromisoformat` rejects yields exactly one distinct issue
naming the invalid timestamp. When schema validation fails the schema issue
alone is returned and the timestamp stage never runs (see the
counterexample). -/
theorem timestamp_validation (path : String) (fromiso : String → Except String Unit)
    (schemaErrs : Option (List (String × JValue) → List String))
    (m : List (String × JValue)) (s : String)
    (hfield : alookup "timestamp" m = some (JValue.str s)) :
    (hasTrailingZ s = true →
      fromiso (zNormalize s) = .ok () →
      vofSchemaIssues schemaErrs m = [] →
      vofMissing m = [] →
      validate_output_file path fromiso schemaErrs (.ok (.obj m)) = []) ∧
    (∀ exc, fromiso (zNormalize s) = .error exc →
      vofSchemaIssues schemaErrs m = [] →
      validate_output_file path fromiso schemaErrs (.ok (.obj m)) =
        [path ++ ": invalid timestamp format: " ++ exc]) := by
  constructor
  · intro _ hok hschema hmiss
    have hts2 : vofTsIssues path fromiso m = [] := by
      unfold vofTsIssues
      rw [hfield]
      show (match fromiso (tsNormalize (JValue.str s)) with
        | .error exc => [path ++ ": invalid timestamp format: " ++ exc]
        | .ok _ => []) = []
      rw [show tsNormalize (JValue.str s) = zNormalize s from rfl, hok]
    show (if (vofSchemaIssues schemaErrs m).isEmpty then _ else _) = _
    rw [hschema]
    simp only [List.isEmpty_nil, if_true]
    rw [hts2]
    simp only [List.isEmpty_nil, if_true]
    rw [hmiss]
    simp
  · intro exc herr hschema
    have hts2 : vofTsIssues path fromiso m =
        [path ++ ": invalid timestamp format: " ++ exc] := by
      unfold vofTsIssues
      rw [hfield]
      show (match fromiso (tsNormalize (JValue.str s)) with
        | .error exc => [path ++ ": invalid timestamp format: " ++ exc]
        | .ok _ => []) = _
      rw [show tsNormalize (JValue.str s) = zNormalize s from rfl, herr]
    show (if (vofSchemaIssues schemaErrs m).isEmpty then _ else _) = _
    rw [hschema]
    simp only [List.isEmpty_nil, if_true]
    rw [hts2]
    simp

/-- Witness for C7 at concrete inputs: a trailing-Z timestamp with all
required keys present validates with no issues; an unparseable timestamp
yields exactly the one naming issue. -/
theorem timestamp_validation_witness :
    validate_output_file "t.json"
        (fun sn => if sn = "2024-01-01T00:00:00+00:00" then .ok () else .error "bad")
        none
        (.ok (.obj [("run_id", JValue.str "r1"), ("model", JValue.str "m1"),
          ("prompt_id", JValue.str "p1"),
          ("timestamp", JValue.str "2024-01-01T00:00:00Z")])) = [] ∧
    validate_output_file "t.json"
        (fun sn => if sn = "2024-01-01T00:00:00+00:00" then .ok () else .error "bad")
        none
        (.ok (.obj [("run_id", JValue.str "r1"), ("model", JValue.str "m1"),
          ("prompt_id", JValue.str "p1"), ("timestamp", JValue.str "nope")])) =
      ["t.json: invalid timestamp format: bad"] := by
  constructor
  · exact (timestamp_validation "t.json"
      (fun sn => if sn = "2024-01-01T00:00:00+00:00" then .ok () else .error "bad") none
      [("run_id", JValue.str "r1"), ("model", JValue.str "m1"),
        ("prompt_id", JValue.str "p1"), ("timestamp", JValue.str "2024-01-01T00:00:00Z")]
      "2024-01-01T00:00:00Z" (by rfl)).1 (by decide) (by rfl) rfl (by decide)
  · exact (timestamp_validation "t.json"
      (fun sn => if sn = "2024-01-01T00:00:00+00:00" then .ok () else .error "bad") none
      [("run_id", JValue.str "r1"), ("model", JValue.str "m1"),
        ("prompt_id", JValue.str "p1"), ("timestamp", JValue.str "nope")]
      "nope" (by rfl)).2 "bad" (by rfl) rfl

/-! ## Structured-document validator (`validate_config.validate_document`)

The YAML loader, the JSON-Schema validator (`jsonschema.iter_errors`) and the
Pydantic model are black boxes per the spec: the loader outcome is passed in
as an `Except` (its error branch covers both a YAML parse failure and the
non-mapping-root `ValueError` raised by `load_yaml`, both caught by the same
`except` clause), `iter_errors` is an oracle yielding errors with their
location paths, and `model_validate` is an oracle returning the exception
text of a `ValidationError`, if any (Pydantic gathers all model violations
into that one exception). -/

/-- One JSON-Schema validation error: location path segments (already
stringified property names / array indices) and a message. -/
structure SchemaError where
  path : List String
  message : String

/-- `"/".join(str(part) for part in error.path) or "<root>"`: the "/"-joined
location, with the literal root marker when the join is empty. -/
def schemaErrorLocation (e : SchemaError) : String :=
  if String.intercalate "/" e.path = "" then "<root>"
  else String.intercalate "/" e.path

/-- `validate_config.ValidationResult`. -/
structure ValidationResult where
  label : String
  ok : Bool
  errors : List String

/-- `validate_document(label, data_path, schema_path, model_class)`, with the
file loads and the two validators passed in explicitly. -/
def validate_document {σ : Type} (label : String)
    (loadYaml : Except String (List (String × JValue)))
    (loadSchema : Except String σ)
    (jsonschemaErrors : σ → List (String × JValue) → List SchemaError)
    (modelValidate : List (String × JValue) → Option String) : ValidationResult :=
  match loadYaml with
  | .error exc => ⟨label, false, ["YAML error: " ++ exc]⟩
  | .ok data =>
    match loadSchema with
    | .error exc => ⟨label, false, ["Schema load error: " ++ exc]⟩
    | .ok schema =>
      let schemaIssues := (jsonschemaErrors schema data).map
        (fun e => schemaErrorLocation e ++ ": " ++ e.message)
      let errors := schemaIssues.map (fun issue => "Schema: " ++ issue) ++
        (match modelValidate data with
         | some exc => ["Pydantic: " ++ exc]
         | none => [])
      ⟨label, errors.isEmpty, errors⟩

/-- C3: (i) an unparsable document or a non-mapping root yields exactly one
issue and no schema or model validation runs; (ii) otherwise the issue list is
exactly all the schema errors, in order, each prefixed with its "/"-joined
location path, followed by the model-stage issue — the schema stage is
exhaustive and the model stage still runs after schema failures; (iii) a
root-level schema failure uses the literal "<root>" marker. -/
theorem validate_document_stages {σ : Type} (label : String)
    (loadYaml : Except String (List (String × JValue)))
    (loadSchema : Except String σ)
    (jsonschemaErrors : σ → List (String × JValue) → List SchemaError)
    (modelValidate : List (String × JValue) → Option String) :
    (∀ exc, loadYaml = .error exc →
      (validate_document label loadYaml loadSchema jsonschemaErrors modelValidate).errors =
        ["YAML error: " ++ exc] ∧
      (validate_document label loadYaml loadSchema jsonschemaErrors modelValidate).ok
        = false) ∧
    (∀ data schema, loadYaml = .ok data → loadSchema = .ok schema →
      (validate_document label loadYaml loadSchema jsonschemaErrors modelValidate).errors =
        (jsonschemaErrors schema data).map
          (fun e => "Schema: " ++ (schemaErrorLocation e ++ ": " ++ e.message)) ++
        (match modelValidate data with
         | some exc => ["Pydantic: " ++ exc]
         | none => [])) ∧
    (∀ e : SchemaError, e.path = [] → schemaErrorLocation e = "<root>") := by
  refine ⟨?_, ?_, ?_⟩
  · intro exc h
    rw [h]
    exact ⟨rfl, rfl⟩
  · intro data schema hy hs
    rw [hy, hs]
    show ((jsonschemaErrors schema data).map
        (fun e => schemaErrorLocation e ++ ": " ++ e.message)).map
          (fun issue => "Schema: " ++ issue) ++ _ = _
    rw [List.map_map]
    rfl
  · intro e he
    unfold schemaErrorLocation
    rw [he]
    rfl

/-- Witness for C3 at concrete inputs: a two-error schema stage (one of them
at the root) together with a failing model stage. -/
theorem validate_document_stages_witness :
    (validate_document (σ := Unit) "models" (.ok [("a", JValue.num 1)]) (.ok ())
        (fun _ _ => [⟨["providers", "0"], "is not allowed"⟩, ⟨[], "missing default"⟩])
        (fun _ => some "2 validation errors")).errors =
      ["Schema: providers/0: is not allowed", "Schema: <root>: missing default",
        "Pydantic: 2 validation errors"] ∧
    (validate_document (σ := Unit) "models" (.error "bad yaml") (.ok ())
        (fun _ _ => [⟨[], "never reached"⟩]) (fun _ => some "never reached")).errors =
      ["YAML error: bad yaml"] := by
  constructor
  · have h := (validate_document_stages (σ := Unit) "models" (.ok [("a", JValue.num 1)])
      (.ok ())
      (fun _ _ => [⟨["providers", "0"], "is not allowed"⟩, ⟨[], "missing default"⟩])
      (fun _ => some "2 validation errors")).2.1 [("a", JValue.num 1)] () rfl rfl
    rw [h]
    rfl
  · exact ((validate_document_stages (σ := Unit) "models" (.error "bad yaml") (.ok ())
      (fun _ _ => [⟨[], "never reached"⟩]) (fun _ => some "never reached")).1
        "bad yaml" rfl).1

/-! ## Audit result aggregator (`scripts/rz_ai_check.py`)

`run_checks` is embedded as a pure function of the three member audit
results (the audits themselves are functions of the filesystem, passed in
here as their outcomes). The `to_json` serializations mirror
`dataclasses.asdict` field order with the derived `is_compliant` appended. -/

/-- `audit_data_layout.DataAuditResult`. -/
structure DataAuditResult where
  target : String
  missing_dirs : List String
  stray_items : List String
  metadata_issues : List String

/-- `DataAuditResult.is_compliant`: no missing dirs, strays or issues. -/
def DataAuditResult.is_compliant (r : DataAuditResult) : Bool :=
  r.missing_dirs.isEmpty && r.stray_items.isEmpty && r.metadata_issues.isEmpty

/-- `DataAuditResult.to_json`. -/
def DataAuditResult.to_json (r : DataAuditResult) : JValue :=
  .obj [("target", .str r.target),
        ("missing_dirs", .arr (r.missing_dirs.map JValue.str)),
        ("stray_items", .arr (r.stray_items.map JValue.str)),
        ("metadata_issues", .arr (r.metadata_issues.map JValue.str)),
        ("is_compliant", .bool r.is_compliant)]

/-- `audit_tooling.ToolingAuditResult`. -/
structure ToolingAuditResult where
  target : String
  missing_required : List String
  missing_recommended : List String
  missing_recommended_dirs : List String

/-- `ToolingAuditResult.is_compliant`: no missing required items
(recommended gaps never flip compliance). -/
def ToolingAuditResult.is_compliant (r : ToolingAuditResult) : Bool :=
  r.missing_required.isEmpty

/-- `ToolingAuditResult.to_json`. -/
def ToolingAuditResult.to_json (r : ToolingAuditResult) : JValue :=
  .obj [("target", .str r.target),
        ("missing_required", .arr (r.missing_required.map JValue.str)),
        ("missing_recommended", .arr (r.missing_recommended.map JValue.str)),
        ("missing_recommended_dirs", .arr (r.missing_recommended_dirs.map JValue.str)),
        ("is_compliant", .bool r.is_compliant)]

/-- `prompt_extract.PromptFinding`. -/
structure PromptFinding where
  path : String
  line : Nat
  var_name : String
  value : String

/-- `PromptFinding.to_json`. -/
def PromptFinding.to_json (p : PromptFinding) : JValue :=
  .obj [("path", .str p.path), ("line", .num p.line), ("var_name", .str p.var_name),
        ("value", .str p.value)]

/-- `prompt_extract.PromptExtractionResult`. -/
structure PromptExtractionResult where
  target : String
  prompts : List PromptFinding

/-- `PromptExtractionResult.is_compliant`: extraction is informational and
always compliant. -/
def PromptExtractionResult.is_compliant (_ : PromptExtractionResult) : Bool :=
  true

/-- `PromptExtractionResult.to_json`. -/
def PromptExtractionResult.to_json (r : PromptExtractionResult) : JValue :=
  .obj [("target", .str r.target),
        ("prompts", .arr (r.prompts.map PromptFinding.to_json)),
        ("is_compliant", .bool r.is_compliant)]

/-- `rz_ai_check.CheckResult`. -/
structure CheckResult where
  name : String
  status : String
  details : JValue

/-- `rz_ai_check.ConsolidatedReport`. -/
structure ConsolidatedReport where
  target : String
  checks : List CheckResult

/-- `ConsolidatedReport.passed`: all member checks have status "pass". -/
def ConsolidatedReport.passed (r : ConsolidatedReport) : Bool :=
  r.checks.all (fun c => c.status == "pass")

/-- `rz_ai_check.run_checks(target_root)` as a function of the three member
audit outcomes: tooling, data layout, prompt extraction. The prompt check is
informational (always "pass") and its details carry only the prompt count and
the target. -/
def run_checks (target : String) (toolingResult : ToolingAuditResult)
    (dataResult : DataAuditResult) (promptResult : PromptExtractionResult) :
    ConsolidatedReport :=
  { target := target
    checks :=
      [{ name := "tooling"
         status := if toolingResult.is_compliant then "pass" else "fail"
         details := toolingResult.to_json },
       { name := "data_layout"
         status := if dataResult.is_compliant then "pass" else "fail"
         details := dataResult.to_json },
       { name := "prompt_extract"
         status := "pass"
         details := .obj [("prompt_count", .num promptResult.prompts.length),
                          ("target", .str promptResult.target)] }] }

/-- Whether a JSON value is an object carrying the given key. -/
def jHasKey (k : String) : JValue → Bool
  | .obj fields => (alookup k fields).isSome
  | _ => false

/-- C5 counterexample: for an extraction result with one finding, the
consolidated report keeps only a summary (`prompt_count`, `target`) as the
prompt check's details — the full structured extraction result (in particular
its `prompts` list) is not preserved verbatim. -/
theorem run_checks_details_counterexample :
    (run_checks "t" ⟨"t", [], [], []⟩ ⟨"t", [], [], []⟩
        ⟨"t", [⟨"f.py", 1, "system_prompt", "hello"⟩]⟩).checks.map
      (fun c => c.details) =
      [ToolingAuditResult.to_json ⟨"t", [], [], []⟩,
       DataAuditResult.to_json ⟨"t", [], [], []⟩,
       .obj [("prompt_count", .num 1), ("target", .str "t")]] ∧
    jHasKey "prompts" (JValue.obj [("prompt_count", .num 1), ("target", .str "t")]) = false ∧
    jHasKey "prompts"
      (PromptExtractionResult.to_json ⟨"t", [⟨"f.py", 1, "system_prompt", "hello"⟩]⟩) = true ∧
    ¬ (JValue.obj [("prompt_count", .num 1), ("target", .str "t")] =
        PromptExtractionResult.to_json ⟨"t", [⟨"f.py", 1, "system_prompt", "hello"⟩]⟩) := by
  refine ⟨rfl, rfl, rfl, ?_⟩
  intro h
  exact absurd (congrArg (jHasKey "prompts") h) (by decide)

/-- C5 (amended): the consolidated report's overall status is pass iff every
member check's status is pass (equivalently, iff the tooling and data-layout
audits are compliant — the prompt check never affects it); the tooling and
data-layout members' full structured details are preserved verbatim; the
prompt-discovery member always reports pass, regardless of how many prompts
were found, and its details carry only the prompt count and the target. -/
theorem run_checks_aggregation (target : String) (tr : ToolingAuditResult)
    (dr : DataAuditResult) (pr : PromptExtractionResult) :
    ((run_checks target tr dr pr).passed = true ↔
      ∀ c ∈ (run_checks target tr dr pr).checks, c.status = "pass") ∧
    (run_checks target tr dr pr).passed = (tr.is_compliant && dr.is_compliant) ∧
    (run_checks target tr dr pr).checks.map (fun c => c.name) =
      ["tooling", "data_layout", "prompt_extract"] ∧
    (run_checks target tr dr pr).checks.map (fun c => c.details) =
      [tr.to_json, dr.to_json,
       .obj [("prompt_count", .num pr.prompts.length), ("target", .str pr.target)]] ∧
    (∀ c ∈ (run_checks target tr dr pr).checks,
      c.name = "prompt_extract" → c.status = "pass") := by
  refine ⟨?_, ?_, rfl, rfl, ?_⟩
  · simp [ConsolidatedReport.passed, List.all_eq_true]
  · by_cases h1 : tr.is_compliant <;> by_cases h2 : dr.is_compliant <;>
      simp [run_checks, ConsolidatedReport.passed, h1, h2]
  · intro c hc
    simp only [run_checks, List.mem_cons, List.not_mem_nil, or_false] at hc
    rcases hc with hc | hc | hc
    · subst hc
      intro hname
      by_cases h1 : tr.is_compliant <;> simp [h1] at hname
    · subst hc
      intro hname
      by_cases h2 : dr.is_compliant <;> simp [h2] at hname
    · subst hc
      intro _
      rfl

/-- Witness for the amended C5 at a concrete input: a failing data-layout
audit and two prompt findings. -/
theorem run_checks_aggregation_witness :
    ((run_checks "w" ⟨"w", [], ["mypy.ini"], []⟩ ⟨"w", ["data/raw"], [], []⟩
        ⟨"w", [⟨"a.py", 3, "user_prompt", "x"⟩, ⟨"b.py", 9, "template", "y"⟩]⟩).passed = true ↔
      ∀ c ∈ (run_checks "w" ⟨"w", [], ["mypy.ini"], []⟩ ⟨"w", ["data/raw"], [], []⟩
        ⟨"w", [⟨"a.py", 3, "user_prompt", "x"⟩, ⟨"b.py", 9, "template", "y"⟩]⟩).checks,
        c.status = "pass") ∧
    (run_checks "w" ⟨"w", [], ["mypy.ini"], []⟩ ⟨"w", ["data/raw"], [], []⟩
        ⟨"w", [⟨"a.py", 3, "user_prompt", "x"⟩, ⟨"b.py", 9, "template", "y"⟩]⟩).passed =
      ((ToolingAuditResult.is_compliant ⟨"w", [], ["mypy.ini"], []⟩) &&
       (DataAuditResult.is_compliant ⟨"w", ["data/raw"], [], []⟩)) ∧
    (run_checks "w" ⟨"w", [], ["mypy.ini"], []⟩ ⟨"w", ["data/raw"], [], []⟩
        ⟨"w", [⟨"a.py", 3, "user_prompt", "x"⟩, ⟨"b.py", 9, "template", "y"⟩]⟩).checks.map
      (fun c => c.name) = ["tooling", "data_layout", "prompt_extract"] ∧
    (run_checks "w" ⟨"w", [], ["mypy.ini"], []⟩ ⟨"w", ["data/raw"], [], []⟩
        ⟨"w", [⟨"a.py", 3, "user_prompt", "x"⟩, ⟨"b.py", 9, "template", "y"⟩]⟩).checks.map
      (fun c => c.details) =
      [ToolingAuditResult.to_json ⟨"w", [], ["mypy.ini"], []⟩,
       DataAuditResult.to_json ⟨"w", ["data/raw"], [], []⟩,
       .obj [("prompt_count", .num 2), ("target", .str "w")]] ∧
    (∀ c ∈ (run_checks "w" ⟨"w", [], ["mypy.ini"], []⟩ ⟨"w", ["data/raw"], [], []⟩
        ⟨"w", [⟨"a.py", 3, "user_prompt", "x"⟩, ⟨"b.py", 9, "template", "y"⟩]⟩).checks,
      c.name = "prompt_extract" → c.status = "pass") :=
  run_checks_aggregation "w" ⟨"w", [], ["mypy.ini"], []⟩ ⟨"w", ["data/raw"], [], []⟩
    ⟨"w", [⟨"a.py", 3, "user_prompt", "x"⟩, ⟨"b.py", 9, "template", "y"⟩]⟩

/-! ## Content pattern scanner (`scripts/audit_llm_usage.py`)

File texts are embedded as `List Char`. `str.splitlines` is modelled for the
universal newlines `\n`, `\r\n` and `\r` (the forms the scanned source files
use); `str.lower` and `str.strip` are modelled per character. Per-file I/O is
passed in explicitly as the outcome of `stat()` (the file size, or failure)
and of `read_text` (the text, or failure). -/

/-- `str.lower()` of a character list. -/
def lowerChars (cs : List Char) : List Char :=
  cs.map Char.toLower

/-- Python substring containment `p in s`. -/
def isSubstr (p s : List Char) : Bool :=
  (List.range (s.length + 1)).any (fun i => List.isPrefixOf p (s.drop i))

/-- `str.splitlines()` worker: `acc` holds the current line, reversed. A line
terminator ends a line; a trailing terminator adds no extra empty line. -/
def splitlinesAux : List Char → List Char → List (List Char)
  | acc, [] => if acc.isEmpty then [] else [acc.reverse]
  | acc, '\r' :: '\n' :: rest => acc.reverse :: splitlinesAux [] rest
  | acc, '\r' :: rest => acc.reverse :: splitlinesAux [] rest
  | acc, '\n' :: rest => acc.reverse :: splitlinesAux [] rest
  | acc, c :: rest => splitlinesAux (c :: acc) rest

/-- `text.splitlines()`. -/
def splitlines (cs : List Char) : List (List Char) :=
  splitlinesAux [] cs

/-- The whitespace stripped by `str.strip()` (ASCII forms). -/
def isSpaceChar (c : Char) : Bool :=
  c = ' ' || c = '\t' || c = '\n' || c = '\r' || c = '\x0b' || c = '\x0c'

/-- `line.strip()`. -/
def pyStrip (cs : List Char) : List Char :=
  ((cs.dropWhile isSpaceChar).reverse.dropWhile isSpaceChar).reverse

/-- `audit_llm_usage.Finding`. -/
structure Finding where
  path : String
  line : Nat
  message : String
  snippet : Option String

/-- The snippet stored on a match: the stripped source line, truncated to the
first 157 characters plus "..." once it exceeds 160 characters; an empty
snippet is stored as `None` (`snippet or None`). -/
def mkSnippet (line : List Char) : Option String :=
  let s := pyStrip line
  let s2 := if 160 < s.length then s.take 157 ++ ['.', '.', '.'] else s
  if s2.isEmpty then none else some (String.mk s2)

/-- The line loop of `_scan_file`: split into lines, lowercase each once, and
for each (1-based) line try every pattern in order, appending one Finding per
case-insensitive substring match. -/
def scanText (path : String) (patterns : List (String × String)) (text : List Char) :
    List Finding :=
  let lines := splitlines text
  let lowered := lines.map lowerChars
  (List.enumFrom 1 (lines.zip lowered)).foldl
    (fun acc x =>
      patterns.foldl
        (fun acc2 pm =>
          if isSubstr (lowerChars pm.1.data) x.2.2 then
            acc2 ++ [{ path := path, line := x.1, message := pm.2,
                       snippet := mkSnippet x.2.1 }]
          else acc2)
        acc)
    []

theorem foldl_pattern_append {β γ : Type} (c : β → Bool) (f : β → γ) (l : List β) :
    ∀ acc : List γ,
      l.foldl (fun a pm => if c pm then a ++ [f pm] else a) acc =
        acc ++ (l.filter c).map f := by
  induction l with
  | nil => intro acc; simp
  | cons pm rest ih =>
    intro acc
    by_cases h : c pm
    · simp only [List.foldl_cons]
      rw [if_pos h, List.filter_cons, if_pos h, List.map_cons, ih (acc ++ [f pm])]
      simp [List.append_assoc]
    · simp only [List.foldl_cons]
      rw [if_neg h, List.filter_cons, if_neg h, ih acc]

theorem scanText_enum (path : String) (patterns : List (String × String)) :
    ∀ (lines : List (List Char)) (i : Nat) (acc : List Finding),
      (List.enumFrom i (lines.zip (lines.map lowerChars))).foldl
        (fun acc2 x =>
          patterns.foldl
            (fun a pm =>
              if isSubstr (lowerChars pm.1.data) x.2.2 then
                a ++ [{ path := path, line := x.1, message := pm.2,
                        snippet := mkSnippet x.2.1 }]
              else a)
            acc2)
        acc =
      acc ++ (List.enumFrom i lines).flatMap (fun il =>
        (patterns.filter (fun pm => isSubstr (lowerChars pm.1.data) (lowerChars il.2))).map
          (fun pm => { path := path, line := il.1, message := pm.2,
                       snippet := mkSnippet il.2 })) := by
  intro lines
  induction lines with
  | nil => intro i acc; simp [List.enumFrom]
  | cons l rest ih =>
    intro i acc
    show (List.enumFrom i ((l, lowerChars l) :: rest.zip (rest.map lowerChars))).foldl _ acc = _
    rw [show List.enumFrom i ((l, lowerChars l) :: rest.zip (rest.map lowerChars)) =
      (i, (l, lowerChars l)) :: List.enumFrom (i + 1) (rest.zip (rest.map lowerChars))
      from rfl]
    rw [List.foldl_cons]
    rw [foldl_pattern_append
      (fun pm => isSubstr (lowerChars pm.1.data) (lowerChars l))
      (fun pm => { path := path, line := i, message := pm.2, snippet := mkSnippet l })
      patterns acc]
    rw [ih (i + 1) _]
    rw [show List.enumFrom i (l :: rest) = (i, l) :: List.enumFrom (i + 1) rest from rfl]
    rw [List.flatMap_cons, List.append_assoc]

/-- C8: the scanner's findings are exactly, in order: for every line (1-based)
and every pattern, one Finding per (line, pattern) pair whose case-insensitive
pattern occurs as a substring of the case-insensitive line, carrying the line
number, the pattern's message, and the stripped snippet truncated with an
ellipsis past 160 characters; several patterns matching one line each
produce their own Finding, with no deduplication. -/
theorem scan_findings_characterization (path : String)
    (patterns : List (String × String)) (text : List Char) :
    scanText path patterns text =
      (List.enumFrom 1 (splitlines text)).flatMap (fun il =>
        (patterns.filter
          (fun pm => isSubstr (lowerChars pm.1.data) (lowerChars il.2))).map
          (fun pm => { path := path, line := il.1, message := pm.2,
                       snippet := mkSnippet il.2 })) := by
  show (List.enumFrom 1 ((splitlines text).zip ((splitlines text).map lowerChars))).foldl
      _ [] = _
  rw [scanText_enum path patterns (splitlines text) 1 []]
  rfl

/-- Witness for C8 at a concrete input: two patterns, the second matching two
lines of a three-line text (one line matched case-insensitively), each match
its own Finding. -/
theorem scan_findings_characterization_witness :
    scanText "a.py" [("zzz", "m1"), ("openai.", "m2")]
        ("x = openai.call()\nplain\n  Y = OPENAI.go()\n".data) =
      (List.enumFrom 1 (splitlines ("x = openai.call()\nplain\n  Y = OPENAI.go()\n".data))).flatMap
        (fun il =>
          (([("zzz", "m1"), ("openai.", "m2")] : List (String × String)).filter
            (fun pm => isSubstr (lowerChars pm.1.data) (lowerChars il.2))).map
            (fun pm => { path := "a.py", line := il.1, message := pm.2,
                         snippet := mkSnippet il.2 })) ∧
    scanText "a.py" [("zzz", "m1"), ("openai.", "m2")]
        ("x = openai.call()\nplain\n  Y = OPENAI.go()\n".data) =
      [{ path := "a.py", line := 1, message := "m2", snippet := some "x = openai.call()" },
       { path := "a.py", line := 3, message := "m2", snippet := some "Y = OPENAI.go()" }] :=
  ⟨scan_findings_characterization "a.py" [("zzz", "m1"), ("openai.", "m2")]
      ("x = openai.call()\nplain\n  Y = OPENAI.go()\n".data),
    by rfl⟩

/-- Per-file I/O outcome for one scanned file: the `stat()` result (size, or
failure) and the `read_text` result (text, or failure). -/
structure FileState where
  stt : Option Nat
  rd : Option (List Char)

/-- The read-and-scan tail of `_scan_file`: a failing read yields one
file-level Finding, otherwise the text is scanned line by line. -/
def scanReadPart (path : String) (patterns : List (String × String)) (f : FileState) :
    List Finding :=
  match f.rd with
  | none => [{ path := path, line := 0, message := "Unable to read file for scanning.",
               snippet := none }]
  | some text => scanText path patterns text

/-- `_scan_file(path, patterns, max_size_bytes)`: a failing `stat()` (only
consulted when a size cap is set — the `and` short-circuits) yields one
file-level Finding; an oversized file is silently skipped; otherwise the file
is read and scanned. -/
def scan_file (path : String) (patterns : List (String × String))
    (maxSize : Option Nat) (f : FileState) : List Finding :=
  match maxSize with
  | some m =>
    match f.stt with
    | none => [{ path := path, line := 0, message := "Unable to stat file for scanning.",
                 snippet := none }]
    | some sz => if m < sz then [] else scanReadPart path patterns f
  | none => scanReadPart path patterns f

/-- `audit_llm_usage.audit`: scan every candidate file, extending one findings
list. -/
def audit_llm (patterns : List (String × String)) (maxSize : Option Nat)
    (files : List (String × FileState)) : List Finding :=
  files.foldl (fun acc pf => acc ++ scan_file pf.1 patterns maxSize pf.2) []

theorem audit_llm_go (patterns : List (String × String)) (maxSize : Option Nat) :
    ∀ (files : List (String × FileState)) (acc : List Finding),
      files.foldl (fun acc2 pf => acc2 ++ scan_file pf.1 patterns maxSize pf.2) acc =
        acc ++ audit_llm patterns maxSize files := by
  intro files
  induction files with
  | nil => intro acc; simp [audit_llm]
  | cons pf rest ih =>
    intro acc
    rw [List.foldl_cons, ih (acc ++ scan_file pf.1 patterns maxSize pf.2)]
    show _ = acc ++ (List.foldl _ [] (pf :: rest))
    rw [List.foldl_cons, ih ([] ++ scan_file pf.1 patterns maxSize pf.2)]
    simp [List.append_assoc]

/-- C9: (i) with a size cap set, a failing `stat()` yields exactly one
file-level Finding (line 0) describing the stat failure; (ii) a failing read
after a successful, within-cap stat yields exactly one file-level Finding
describing the read failure — likewise with no size cap, where `stat()` is
never consulted; (iii) the scan of a file list containing a failing file is
the concatenation of the scans before it, its own file-level Finding, and the
scans after it — the audit continues with the remaining files and, being a
total function, always completes. -/
theorem scan_io_failures (patterns : List (String × String)) :
    (∀ (path : String) (m : Nat) (f : FileState), f.stt = none →
      scan_file path patterns (some m) f =
        [{ path := path, line := 0, message := "Unable to stat file for scanning.",
           snippet := none }]) ∧
    (∀ (path : String) (m sz : Nat) (f : FileState), f.stt = some sz → sz ≤ m →
      f.rd = none →
      scan_file path patterns (some m) f =
        [{ path := path, line := 0, message := "Unable to read file for scanning.",
           snippet := none }]) ∧
    (∀ (path : String) (f : FileState), f.rd = none →
      scan_file path patterns none f =
        [{ path := path, line := 0, message := "Unable to read file for scanning.",
           snippet := none }]) ∧
    (∀ (maxSize : Option Nat) (pre post : List (String × FileState))
        (bad : String × FileState),
      audit_llm patterns maxSize (pre ++ bad :: post) =
        audit_llm patterns maxSize pre ++ scan_file bad.1 patterns maxSize bad.2 ++
          audit_llm patterns maxSize post) := by
  refine ⟨?_, ?_, ?_, ?_⟩
  · intro path m f hstt
    unfold scan_file
    rw [hstt]
  · intro path m sz f hstt hle hrd
    unfold scan_file
    rw [hstt]
    show (if m < sz then [] else scanReadPart path patterns f) = _
    rw [if_neg (by omega)]
    unfold scanReadPart
    rw [hrd]
  · intro path f hrd
    unfold scan_file scanReadPart
    rw [hrd]
  · intro maxSize pre post bad
    rw [show audit_llm patterns maxSize (pre ++ bad :: post) =
      List.foldl (fun acc pf => acc ++ scan_file pf.1 patterns maxSize pf.2) []
        (pre ++ bad :: post) from rfl]
    rw [List.foldl_append, List.foldl_cons]
    rw [audit_llm_go patterns maxSize post]
    rw [show List.foldl (fun acc pf => acc ++ scan_file pf.1 patterns maxSize pf.2) [] pre =
      audit_llm patterns maxSize pre from rfl]

/-- Witness for C9 at concrete inputs: one unstattable file and one unreadable
file inside a three-file scan. -/
theorem scan_io_failures_witness :
    scan_file "a.py" [("openai.", "m")] (some 100) ⟨none, none⟩ =
      [{ path := "a.py", line := 0, message := "Unable to stat file for scanning.",
         snippet := none }] ∧
    scan_file "b.py" [("openai.", "m")] (some 100) ⟨some 10, none⟩ =
      [{ path := "b.py", line := 0, message := "Unable to read file for scanning.",
         snippet := none }] ∧
    audit_llm [("openai.", "m")] (some 100)
        [("ok.py", ⟨some 5, some "z = openai.c()".data⟩), ("a.py", ⟨none, none⟩),
         ("ok2.py", ⟨some 5, some "w = openai.d()".data⟩)] =
      audit_llm [("openai.", "m")] (some 100)
          [("ok.py", ⟨some 5, some "z = openai.c()".data⟩)] ++
        scan_file "a.py" [("openai.", "m")] (some 100) ⟨none, none⟩ ++
        audit_llm [("openai.", "m")] (some 100)
          [("ok2.py", ⟨some 5, some "w = openai.d()".data⟩)] :=
  ⟨(scan_io_failures [("openai.", "m")]).1 "a.py" 100 ⟨none, none⟩ rfl,
   (scan_io_failures [("openai.", "m")]).2.1 "b.py" 100 10 ⟨some 10, none⟩ rfl
     (by omega) rfl,
   (scan_io_failures [("openai.", "m")]).2.2.2 (some 100)
     [("ok.py", ⟨some 5, some "z = openai.c()".data⟩)]
     [("ok2.py", ⟨some 5, some "w = openai.d()".data⟩)] ("a.py", ⟨none, none⟩)⟩

end AICheck
